import Mathlib

/-!
Verification of the linex event-gateway core (command routing, reply
preconditions, outbound gateway rate limiting, message cache, webhook
dispatch, and the wait-for primitive) against its natural-language
specification.  Python text values are modelled as lists of characters,
Python dicts as insertion-ordered association lists, and the cooperative
asyncio scheduling as explicit state passing with fuel for loops.
-/

namespace Linex

/-- Python strings are sequences of code points; we model them as lists of
characters. -/
abbrev Str := List Char

/-- Conversion from a Lean string literal to the model representation. -/
def strOf (s : String) : Str := s.data

/-- Models Python str.startswith: the argument list is a leading segment of
the receiver. -/
def pyStartsWith : Str → Str → Bool
  | _, [] => true
  | [], _ :: _ => false
  | c :: cs, d :: ds => c == d && pyStartsWith cs ds

/-- Models Python str.split(sep) for a one-character separator: splits at
every occurrence; the empty string yields one empty segment. -/
def pySplit (sep : Char) : Str → List Str
  | [] => [[]]
  | c :: rest =>
    match pySplit sep rest with
    | [] => [[]]
    | s :: ss => if c == sep then [] :: s :: ss else (c :: s) :: ss

/-- Models Python str.rstrip(): removes trailing whitespace. -/
def pyRstrip (s : Str) : Str :=
  (s.reverse.dropWhile Char.isWhitespace).reverse

/-- Character-level decimal digit test (ASCII). -/
def isAsciiDigit (c : Char) : Bool := '0' ≤ c && c ≤ '9'

/-- Numeric value of an ASCII digit. -/
def digitVal (c : Char) : Nat := c.toNat - '0'.toNat

/-- Natural number denoted by a digit list, most significant first. -/
def digitsToNat : Str → Nat
  | [] => 0
  | c :: cs => digitsToNat cs + digitVal c * 10 ^ cs.length

/-- Models Python int(str) on its ASCII core: optional surrounding
whitespace, an optional sign, then one or more decimal digits (underscore
grouping and non-ASCII digits are outside the modelled subset).  Returns
none where CPython raises ValueError. -/
def pyIntOfStr (s : Str) : Option Int :=
  let t := (s.dropWhile Char.isWhitespace).reverse.dropWhile Char.isWhitespace
    |>.reverse
  let core : Str → Option Nat := fun u =>
    if u ≠ [] && u.all isAsciiDigit then some (digitsToNat u) else none
  match t with
  | '+' :: rest => (core rest).map Int.ofNat
  | '-' :: rest => (core rest).map (fun n => -(Int.ofNat n))
  | rest => (core rest).map Int.ofNat

/-- Models Python float(str) on its plain-decimal core: optional sign and
digits with at most one point, at least one digit overall (exponents,
infinities and nan are outside the modelled subset).  The value is kept as
an exact rational; returns none where CPython raises ValueError. -/
def pyFloatOfStr (s : Str) : Option ℚ :=
  let t := (s.dropWhile Char.isWhitespace).reverse.dropWhile Char.isWhitespace
    |>.reverse
  let unsigned : Str → Option ℚ := fun u =>
    match pySplit '.' u with
    | [w] => if w ≠ [] && w.all isAsciiDigit then some (digitsToNat w) else none
    | [w, f] =>
      if (w ++ f) ≠ [] && w.all isAsciiDigit && f.all isAsciiDigit then
        some ((digitsToNat w : ℚ) + (digitsToNat f : ℚ) / (10 ^ f.length : ℚ))
      else none
    | _ => none
  match t with
  | '+' :: rest => unsigned rest
  | '-' :: rest => (unsigned rest).map Neg.neg
  | rest => unsigned rest

/-- Models Python bool(str): truthiness of a string is non-emptiness. -/
def pyBoolOfStr (s : Str) : Bool := !s.isEmpty

/-! ## Command router (src/linex/command.py)

A registered command holds its name, the handler (here: the handler's
function name, since the handler body is integrator glue outside the core),
and the declared parameter metadata: the ordered regular (positional)
slots, each with the annotation recorded at registration, and the optional
trailing keyword slot. -/

/-- Supported parameter annotations, from the tuple (str, int, float, bool)
checked in Command.handle_command. -/
inductive PyType
  | pstr
  | pint
  | pfloat
  | pbool
  deriving DecidableEq, Repr

/-- Declared annotation of a positional slot: either one of the four
supported scalar types or some other annotation, recorded by name (the
source checks membership in (str, int, float, bool) at parse time). -/
inductive PyAnn
  | supported (t : PyType)
  | other (typeName : String)
  deriving DecidableEq, Repr

/-- Parameter metadata produced at registration (meta dict in the source):
meta.regular lists the positional slots in declaration order with their
annotations, meta.kw is the trailing keyword-capturing slot name when one
is declared (the source stores a possibly-empty list and reads index 0). -/
structure CmdMeta where
  regular : List (String × PyAnn)
  kw : Option String
  deriving DecidableEq, Repr

/-- A registered command: dataclass Command(name, func, meta); the handler
function is represented by its name, which the source interpolates into
error messages. -/
structure Command where
  name : Str
  funcName : String
  meta : CmdMeta
  deriving DecidableEq, Repr

/-- Values passed to a command handler: the context itself followed by the
coerced positional arguments. -/
inductive PyVal
  | vCtx
  | vStr (s : Str)
  | vInt (n : Int)
  | vFloat (q : ℚ)
  | vBool (b : Bool)
  deriving DecidableEq, Repr

/-- Exceptions that Command.handle_command can raise while parsing
arguments: the TypeError for an unsupported declared annotation carries
the handler name and the offending parameter name; the ValueError raised
by int()/float() on a bad literal carries the target type and the literal
but no parameter name; indexing meta.regular beyond its length raises
IndexError. -/
inductive CmdErr
  | typeErrorUnsupported (funcName : String) (param : String)
  | valueErrorInvalidLiteral (t : PyType) (lit : Str)
  | indexError
  deriving DecidableEq, Repr

/-- Outcome of Command.handle_command on one text message: False (no
match), a completed handler invocation with its positional argument list
and optional keyword argument, or a raised exception. -/
inductive CmdResult
  | noMatch
  | invoked (args : List PyVal) (kwarg : Option Str)
  | raised (e : CmdErr)
  deriving DecidableEq, Repr

/-- Coercion _type(part) performed for a positional slot with a supported
annotation. -/
def coercePart (t : PyType) (part : Str) : Except CmdErr PyVal :=
  match t with
  | .pstr => .ok (.vStr part)
  | .pint =>
    match pyIntOfStr part with
    | some n => .ok (.vInt n)
    | none => .error (.valueErrorInvalidLiteral .pint part)
  | .pfloat =>
    match pyFloatOfStr part with
    | some q => .ok (.vFloat q)
    | none => .error (.valueErrorInvalidLiteral .pfloat part)
  | .pbool => .ok (.vBool (pyBoolOfStr part))

/-- Argument loop of Command.handle_command: walks the semicolon-separated
segments with their index, appending coerced positional values to args and
accumulating the keyword slot once the positional slots are exhausted (each
excess segment is appended followed by one space).  Mirrors the for loop of
the source, including the order of its checks. -/
def cmdLoop (cmd : Command) : List Str → Nat → List PyVal → Option Str →
    CmdResult
  | [], _, args, kwAcc =>
    .invoked args (kwAcc.map pyRstrip)
  | part :: rest, index, args, kwAcc =>
    if cmd.meta.kw.isSome && index + 1 > cmd.meta.regular.length then
      let base := kwAcc.getD []
      cmdLoop cmd rest (index + 1) args (some (base ++ part ++ [' ']))
    else
      match cmd.meta.regular[index]? with
      | none => .raised .indexError
      | some (pname, ann) =>
        match ann with
        | .other _ => .raised (.typeErrorUnsupported cmd.funcName pname)
        | .supported t =>
          match coercePart t part with
          | .error e => .raised e
          | .ok v => cmdLoop cmd rest (index + 1) (args ++ [v]) kwAcc

/-- Models Command.handle_command(ctx) for a text message whose content is
text: returns noMatch when the text does not start with the command name;
with no declared parameters the handler is invoked immediately; otherwise
the remainder after name plus one character is split on semicolons and fed
to the argument loop. -/
def handleCommand (cmd : Command) (text : Str) : CmdResult :=
  if !pyStartsWith text cmd.name then .noMatch
  else if cmd.meta.kw.isNone && cmd.meta.regular.isEmpty then
    .invoked [.vCtx] none
  else
    let parts := pySplit ';' (text.drop (cmd.name.length + 1))
    cmdLoop cmd parts 0 [.vCtx] none

/-! ## Spec-side argument parsing (spec section 4.6)

The following definitions follow the specification's words, to be compared
with the implementation-derived handleCommand above: positional slots are
consumed left-to-right from the remainder's semicolon-separated segments
and coerced to their declared type; once positional slots are exhausted,
all remaining segments are re-joined and trimmed into the single trailing
keyword slot if declared, else excess segments are an error. -/

/-- Joins segments the way the implementation accumulates the keyword slot:
each segment followed by one space. -/
def joinSp : List Str → Str
  | [] => []
  | s :: ss => s ++ ' ' :: joinSp ss

/-- Spec-side left-to-right consumption of positional slots by segments,
coercing each segment to the declared type of its slot; stops when either
list runs out. -/
def specPositional (funcName : String) :
    List (String × PyAnn) → List Str → Except CmdErr (List PyVal)
  | _, [] => .ok []
  | [], _ => .ok []
  | (pname, ann) :: slots, seg :: segs =>
    match ann with
    | .other _ => .error (.typeErrorUnsupported funcName pname)
    | .supported t =>
      match coercePart t seg with
      | .error e => .error e
      | .ok v =>
        match specPositional funcName slots segs with
        | .error e => .error e
        | .ok vs => .ok (v :: vs)

/-- Spec-side argument parsing of the remainder after the command name and
one space: split on the literal semicolon, consume positional slots, then
place the joined, trimmed excess in the trailing keyword slot when one is
declared; excess segments with no keyword slot are an error. -/
def specParseArgs (funcName : String) (meta : CmdMeta) (rest : Str) :
    Except CmdErr (List PyVal × Option Str) :=
  let segs := pySplit ';' rest
  match specPositional funcName meta.regular segs with
  | .error e => .error e
  | .ok vs =>
    let excess := segs.drop meta.regular.length
    if excess.isEmpty then .ok (.vCtx :: vs, none)
    else
      match meta.kw with
      | some _ => .ok (.vCtx :: vs, some (pyRstrip (joinSp excess)))
      | none => .error .indexError

/-- Interpretation of a spec-side parse outcome as a handle_command
outcome. -/
def ofSpecParse : Except CmdErr (List PyVal × Option Str) → CmdResult
  | .error e => .raised e
  | .ok (args, kw) => .invoked args kw

/-- Boolean test for the error shape the claim predicts on a coercion
failure: a type error naming the given parameter. -/
def isTypeErrorNaming (r : CmdResult) (p : String) : Bool :=
  match r with
  | .raised (.typeErrorUnsupported _ q) => p == q
  | _ => false

/-- Command named send with no declared parameters, as in the spec's
example. -/
def sendCmd : Command := ⟨strOf "send", "send_handler", ⟨[], none⟩⟩

/-- Command named echo with one positional string slot and a trailing
keyword slot, as in the spec's example. -/
def echoCmd : Command :=
  ⟨strOf "echo", "echo_handler", ⟨[("msg", .supported .pstr)], some "rest"⟩⟩

/-- Command named n with one positional integer slot and a trailing keyword
slot, used to exercise a coercion failure. -/
def cntCmd : Command :=
  ⟨strOf "n", "n_handler", ⟨[("count", .supported .pint)], some "rest"⟩⟩

lemma cmdLoop_ne_noMatch (cmd : Command) :
    ∀ (parts : List Str) (idx : Nat) (args : List PyVal) (kwAcc : Option Str),
      cmdLoop cmd parts idx args kwAcc ≠ .noMatch := by
  intro parts
  induction parts with
  | nil => intro idx args kwAcc; simp [cmdLoop]
  | cons part rest ih =>
    intro idx args kwAcc
    simp only [cmdLoop]
    split
    · exact ih _ _ _
    · split
      · simp
      · split
        · simp
        · split
          · simp
          · exact ih _ _ _

lemma pyStartsWith_append (n x : Str) : pyStartsWith (n ++ x) n = true := by
  induction n with
  | nil => cases x <;> simp [pyStartsWith]
  | cons c cs ih => simp [pyStartsWith, ih]

lemma kwPhase (cmd : Command) (kwName : String)
    (hkw : cmd.meta.kw = some kwName) :
    ∀ (segs : List Str) (idx : Nat) (args : List PyVal) (base : Str),
      cmd.meta.regular.length ≤ idx →
      cmdLoop cmd segs idx args (some base) =
        .invoked args (some (pyRstrip (base ++ joinSp segs))) := by
  intro segs
  induction segs with
  | nil => intro idx args base _; simp [cmdLoop, joinSp]
  | cons seg rest ih =>
    intro idx args base h
    rw [cmdLoop]
    rw [if_pos (by simp [hkw]; omega)]
    rw [show (some base : Option Str).getD [] = base from rfl]
    rw [ih (idx + 1) args (base ++ seg ++ [' ']) (Nat.le_succ_of_le h)]
    simp [joinSp, List.append_assoc]

lemma loopPhase (cmd : Command) :
    ∀ (segs : List Str) (idx : Nat) (slots : List (String × PyAnn))
      (args : List PyVal),
      cmd.meta.regular.drop idx = slots →
      cmdLoop cmd segs idx args none =
        (match specPositional cmd.funcName slots segs with
         | .error e => .raised e
         | .ok vs =>
           let excess := segs.drop slots.length
           if excess.isEmpty then .invoked (args ++ vs) none
           else
             match cmd.meta.kw with
             | some _ => .invoked (args ++ vs) (some (pyRstrip (joinSp excess)))
             | none => .raised .indexError) := by
  intro segs
  induction segs with
  | nil =>
    intro idx slots args _
    cases slots <;> simp [cmdLoop, specPositional]
  | cons seg rest ih =>
    intro idx slots args hdrop
    cases slots with
    | nil =>
      have hge : cmd.meta.regular.length ≤ idx := List.drop_eq_nil_iff.mp hdrop
      cases hkw : cmd.meta.kw with
      | none =>
        rw [cmdLoop]
        rw [if_neg (by simp [hkw])]
        have hget : cmd.meta.regular[idx]? = none := List.getElem?_eq_none hge
        rw [hget]
        simp [specPositional]
      | some kwName =>
        rw [cmdLoop]
        rw [if_pos (by simp [hkw]; omega)]
        rw [show (none : Option Str).getD [] = [] from rfl]
        rw [kwPhase cmd kwName hkw rest (idx + 1) args ([] ++ seg ++ [' '])
          (Nat.le_succ_of_le hge)]
        simp [specPositional, hkw, joinSp]
    | cons slot slots' =>
      obtain ⟨pname, ann⟩ := slot
      have hlt : idx < cmd.meta.regular.length := by
        by_contra hcon
        have hnil : cmd.meta.regular.drop idx = [] :=
          List.drop_eq_nil_iff.mpr (Nat.le_of_not_lt hcon)
        rw [hnil] at hdrop
        exact absurd hdrop (by simp)
      have hget : cmd.meta.regular[idx]? = some (pname, ann) := by
        have h0 : (cmd.meta.regular.drop idx)[0]? = some (pname, ann) := by
          rw [hdrop]; simp
        rwa [List.getElem?_drop, Nat.add_zero] at h0
      have hdrop2 : cmd.meta.regular.drop (idx + 1) = slots' := by
        have h1 : List.drop 1 (cmd.meta.regular.drop idx) = slots' := by
          rw [hdrop]; simp
        rwa [List.drop_drop] at h1
      have hnot : ¬ (cmd.meta.regular.length < idx + 1) := by omega
      rw [cmdLoop]
      rw [if_neg (by simp [hnot])]
      rw [hget]
      cases ann with
      | other tn => simp [specPositional]
      | supported t =>
        cases hco : coercePart t seg with
        | error e => simp [specPositional, hco]
        | ok v =>
          simp only [hco]
          rw [ih (idx + 1) slots' (args ++ [v]) hdrop2]
          simp only [specPositional, hco]
          cases specPositional cmd.funcName slots' rest with
          | error e => simp
          | ok vs => simp [List.append_assoc]


/-- Claim C1, counterexample: the command named send with no declared
parameters does match the text sender — the handler is invoked — because
Command.handle_command tests only text.startswith(name), with no following
space or exact-equality requirement. -/
theorem send_matches_sender_counterexample :
    handleCommand sendCmd (strOf "sender") = .invoked [.vCtx] none := by decide

/-- Claim C1 (amended): a command matches a text message, and its handler
path is entered, exactly when the message text starts with the command
name as a plain character prefix; in particular a no-parameter command is
invoked on every text with that prefix, with the context as sole
argument. -/
theorem command_match_iff_text_starts_with_name :
    ∀ (cmd : Command) (text : Str),
      (handleCommand cmd text = .noMatch ↔ pyStartsWith text cmd.name = false)
      ∧ (cmd.meta.regular = [] → cmd.meta.kw = none →
          pyStartsWith text cmd.name = true →
          handleCommand cmd text = .invoked [.vCtx] none) := by
  intro cmd text
  constructor
  · by_cases h : pyStartsWith text cmd.name
    · simp only [handleCommand, h, Bool.not_true, Bool.false_eq_true,
        if_neg, not_false_iff]
      constructor
      · intro hc
        split at hc
        · simp at hc
        · exact absurd hc (cmdLoop_ne_noMatch cmd _ _ _ _)
      · intro hf; simp [h] at hf
    · simp only [Bool.not_eq_true] at h
      simp [handleCommand, h]
  · intro hreg hkw hsw
    simp [handleCommand, hsw, hkw, hreg]

/-- Claim C1, witness: the no-parameter command send is invoked on the
exact text send. -/
theorem command_match_witness :
    handleCommand sendCmd (strOf "send") = .invoked [.vCtx] none :=
  (command_match_iff_text_starts_with_name sendCmd (strOf "send")).2
    rfl rfl (by decide)

/-- Claim C8, counterexample: on the text n abc, the command n with one
positional integer slot raises the ValueError produced by int() — carrying
the literal but no parameter name — not a type error naming the offending
parameter count. -/
theorem coercion_failure_counterexample :
    handleCommand cntCmd (strOf "n abc") =
      .raised (.valueErrorInvalidLiteral .pint (strOf "abc"))
    ∧ isTypeErrorNaming (handleCommand cntCmd (strOf "n abc")) "count"
        = false := by
  constructor <;> decide

/-- Claim C8 (amended): for a command with declared parameters, the text
formed of the command name, one space and a remainder is parsed exactly as
the spec-side description: the remainder is split on literal semicolons,
positional slots consume segments left-to-right coerced to their declared
type (a failing coercion raises the ValueError of int()/float() carrying
the literal, not naming the parameter; an annotation outside str, int,
float, bool raises a type error naming the parameter), the excess segments
are joined with spaces and trimmed into the trailing keyword slot if
declared, and excess segments with no keyword slot raise an error; in
particular echo hello;world yields positional hello and keyword world. -/
theorem command_args_match_spec :
    (∀ (cmd : Command) (rest : Str),
        cmd.meta.kw.isSome ∨ cmd.meta.regular ≠ [] →
        handleCommand cmd (cmd.name ++ ' ' :: rest) =
          ofSpecParse (specParseArgs cmd.funcName cmd.meta rest))
    ∧ handleCommand echoCmd (strOf "echo hello;world") =
        .invoked [.vCtx, .vStr (strOf "hello")] (some (strOf "world")) := by
  constructor
  · intro cmd rest hdp
    have hsw : pyStartsWith (cmd.name ++ ' ' :: rest) cmd.name = true :=
      pyStartsWith_append cmd.name (' ' :: rest)
    have hnotempty : (cmd.meta.kw.isNone && cmd.meta.regular.isEmpty) = false := by
      rcases hdp with h | h
      · simp [Option.isNone_iff_eq_none] at h ⊢
        intro hc; rw [hc] at h; simp at h
      · cases hreg : cmd.meta.regular with
        | nil => exact absurd hreg h
        | cons a l => simp [hreg]
    have hdropt : (cmd.name ++ ' ' :: rest).drop (cmd.name.length + 1) = rest := by
      have : cmd.name ++ ' ' :: rest = (cmd.name ++ [' ']) ++ rest := by
        simp
      rw [this]
      have hlen : cmd.name.length + 1 = (cmd.name ++ [' ']).length := by simp
      rw [hlen, List.drop_left]
    simp only [handleCommand, hsw, Bool.not_true, Bool.false_eq_true, if_neg,
      not_false_iff, hnotempty, hdropt]
    rw [loopPhase cmd (pySplit ';' rest) 0 cmd.meta.regular [.vCtx]
      (List.drop_zero _)]
    simp only [specParseArgs, ofSpecParse]
    cases specPositional cmd.funcName cmd.meta.regular (pySplit ';' rest) with
    | error e => rfl
    | ok vs =>
      simp only []
      split
      · rfl
      · cases cmd.meta.kw <;> rfl
  · decide

/-- Claim C8, witness: the general parse equivalence applied to the echo
example. -/
theorem command_args_match_spec_witness :
    handleCommand echoCmd (echoCmd.name ++ ' ' :: strOf "hello;world") =
      ofSpecParse (specParseArgs echoCmd.funcName echoCmd.meta
        (strOf "hello;world")) :=
  command_args_match_spec.1 echoCmd (strOf "hello;world") (Or.inl (by decide))

/-! ## Reply preconditions (src/linex/models/context.py, RepliableContext)

RepliableContext.reply checks, in order: the reply token is truthy, the
event age now - timestamp is at most 60 * 20 seconds, and the instance has
not replied yet; it then sets the replied flag and only afterwards awaits
the upstream HTTP reply call.  Message building touches neither the flag
nor the checks, so it is elided; the upstream call's success is a
parameter, standing for the HTTP response. -/

/-- Mutable state of a repliable context relevant to reply: the optional
reply token, the timestamp in seconds (the payload's milliseconds divided
by 1000, hence rational), and the replied flag. -/
structure RepliableState where
  reply_token : Option Str
  timestamp : ℚ
  replied : Bool
  deriving DecidableEq, Repr

/-- Errors RepliableContext.reply can raise: the TypeError on a falsy
token, the two CannotReply variants, and the RuntimeError propagated from
the gateway reply call on a non-200 upstream response. -/
inductive ReplyErr
  | typeErrorNoToken
  | cannotReplyTooLate
  | cannotReplyAlreadyReplied
  | upstreamRequestFailed
  deriving DecidableEq, Repr

/-- Python truthiness of the optional token: None and the empty string are
falsy. -/
def tokenTruthy : Option Str → Bool
  | none => false
  | some t => !t.isEmpty

/-- Models one call of RepliableContext.reply at time now, given whether
the upstream HTTP call succeeds; returns the outcome and the context state
after the call. -/
def replyCall (st : RepliableState) (now : ℚ) (upstreamOk : Bool) :
    Except ReplyErr Unit × RepliableState :=
  if !tokenTruthy st.reply_token then (.error .typeErrorNoToken, st)
  else if now - st.timestamp > 60 * 20 then (.error .cannotReplyTooLate, st)
  else if st.replied then (.error .cannotReplyAlreadyReplied, st)
  else
    let st2 := { st with replied := true }
    if upstreamOk then (.ok (), st2) else (.error .upstreamRequestFailed, st2)

lemma replyCall_pass (st : RepliableState) (now : ℚ) (up : Bool)
    (htok : tokenTruthy st.reply_token = true)
    (hnl : ¬ (now - st.timestamp > 60 * 20)) (hrep : st.replied = false) :
    replyCall st now up =
      (if up then .ok () else .error .upstreamRequestFailed,
        { st with replied := true }) := by
  cases up <;> simp [replyCall, htok, hnl, hrep]

lemma replyCall_already (st : RepliableState) (now : ℚ) (up : Bool)
    (htok : tokenTruthy st.reply_token = true)
    (hnl : ¬ (now - st.timestamp > 60 * 20)) (hrep : st.replied = true) :
    (replyCall st now up).1 = .error .cannotReplyAlreadyReplied := by
  simp [replyCall, htok, hnl, hrep]

lemma replyCall_tooLate (st : RepliableState) (now : ℚ) (up : Bool)
    (htok : tokenTruthy st.reply_token = true)
    (hl : now - st.timestamp > 60 * 20) :
    (replyCall st now up).1 = .error .cannotReplyTooLate := by
  simp [replyCall, htok, hl]

lemma replyCall_ok_inv (st : RepliableState) (now : ℚ) (up : Bool)
    (hok : (replyCall st now up).1 = .ok ()) :
    tokenTruthy st.reply_token = true
    ∧ ¬ (now - st.timestamp > 60 * 20) ∧ st.replied = false := by
  unfold replyCall at hok
  split_ifs at hok with h1 h2 h3 h4 <;>
    first
      | exact ⟨by simpa using h1, h2, by simpa using h3⟩
      | simp at hok

lemma le_deadline_not_late (a b : ℚ) (h : a - b ≤ 1200) :
    ¬ (a - b > 60 * 20) := by
  push_neg
  calc a - b ≤ 1200 := h
    _ = 60 * 20 := by norm_num

lemma past_deadline_late (a b : ℚ) (h : a - b > 1200) :
    a - b > 60 * 20 := by
  calc (60 * 20 : ℚ) = 1200 := by norm_num
    _ < a - b := h

/-- Claim C4: reply succeeds at most once per context instance — success
requires the replied flag to have been clear and sets it; a second call on
the same instance within the deadline raises the already-replied error; a
call whose age exceeds 1200 seconds raises the too-late error regardless
of the replied flag (in particular on a first attempt); and after a
success, any further call within the deadline raises already-replied. -/
theorem reply_at_most_once_and_within_deadline :
    ∀ (st : RepliableState) (now : ℚ) (up : Bool),
      ((replyCall st now up).1 = .ok () →
        st.replied = false ∧ ((replyCall st now up).2).replied = true)
      ∧ (tokenTruthy st.reply_token = true → st.replied = true →
          now - st.timestamp ≤ 1200 →
          (replyCall st now up).1 = .error .cannotReplyAlreadyReplied)
      ∧ (tokenTruthy st.reply_token = true → now - st.timestamp > 1200 →
          (replyCall st now up).1 = .error .cannotReplyTooLate)
      ∧ ((replyCall st now up).1 = .ok () →
          ∀ (now2 : ℚ) (up2 : Bool), now2 - st.timestamp ≤ 1200 →
            (replyCall (replyCall st now up).2 now2 up2).1 =
              .error .cannotReplyAlreadyReplied) := by
  intro st now up
  refine ⟨?_, ?_, ?_, ?_⟩
  · intro hok
    obtain ⟨htok, hnl, hrep⟩ := replyCall_ok_inv st now up hok
    refine ⟨hrep, ?_⟩
    rw [replyCall_pass st now up htok hnl hrep]
  · intro htok hrep hage
    exact replyCall_already st now up htok
      (le_deadline_not_late now st.timestamp hage) hrep
  · intro htok hage
    exact replyCall_tooLate st now up htok
      (past_deadline_late now st.timestamp hage)
  · intro hok now2 up2 hage2
    obtain ⟨htok, hnl, hrep⟩ := replyCall_ok_inv st now up hok
    rw [replyCall_pass st now up htok hnl hrep]
    exact replyCall_already _ now2 up2 htok
      (le_deadline_not_late now2 st.timestamp hage2) rfl

/-- Concrete repliable state: token present, timestamp 0, not yet
replied. -/
def freshState : RepliableState := ⟨some (strOf "token"), 0, false⟩

/-- Concrete repliable state that has already been replied to. -/
def repliedState : RepliableState := ⟨some (strOf "token"), 0, true⟩

/-- Claim C4, witness: on an already-replied instance a call at time 5
raises already-replied, and on a fresh instance a call at time 1201 raises
too-late. -/
theorem reply_at_most_once_witness :
    (replyCall repliedState 5 true).1 = .error .cannotReplyAlreadyReplied
    ∧ (replyCall freshState 1201 true).1 = .error .cannotReplyTooLate :=
  ⟨(reply_at_most_once_and_within_deadline repliedState 5 true).2.1
      rfl rfl (by norm_num [repliedState]),
   (reply_at_most_once_and_within_deadline freshState 1201 true).2.2.1
      rfl (by norm_num [freshState])⟩

/-- Claim C10, counterexample: after a first reply attempt whose upstream
call fails, a later attempt past the 1200-second deadline raises the
too-late error, not the already-replied error the claim predicts for every
subsequent attempt. -/
theorem late_retry_raises_too_late_counterexample :
    ((replyCall freshState 0 false).2).replied = true
    ∧ (replyCall (replyCall freshState 0 false).2 2000 true).1 =
        .error .cannotReplyTooLate
    ∧ (replyCall (replyCall freshState 0 false).2 2000 true).1 ≠
        .error .cannotReplyAlreadyReplied := by
  have hpass := replyCall_pass freshState 0 false rfl
    (by norm_num [freshState]) rfl
  refine ⟨by rw [hpass], ?_, ?_⟩ <;> rw [hpass]
  · exact replyCall_tooLate { freshState with replied := true } 2000 true rfl
      (by norm_num [freshState])
  · rw [replyCall_tooLate { freshState with replied := true } 2000 true rfl
      (by norm_num [freshState])]
    simp

/-- Claim C10 (amended): when the precondition checks pass, the replied
flag is set before the upstream call is issued, so an upstream failure
leaves the context marked replied and the single reply attempt permanently
consumed; every subsequent attempt within the 1200-second deadline raises
the already-replied error, while a subsequent attempt past the deadline
raises the too-late error instead. -/
theorem reply_consumed_even_on_upstream_failure :
    ∀ (st : RepliableState) (now : ℚ),
      tokenTruthy st.reply_token = true → now - st.timestamp ≤ 1200 →
      st.replied = false →
      (replyCall st now false).1 = .error .upstreamRequestFailed
      ∧ ((replyCall st now false).2).replied = true
      ∧ (∀ (now2 : ℚ) (up2 : Bool), now2 - st.timestamp ≤ 1200 →
          (replyCall (replyCall st now false).2 now2 up2).1 =
            .error .cannotReplyAlreadyReplied)
      ∧ (∀ (now2 : ℚ) (up2 : Bool), now2 - st.timestamp > 1200 →
          (replyCall (replyCall st now false).2 now2 up2).1 =
            .error .cannotReplyTooLate) := by
  intro st now htok hage hrep
  have hpass := replyCall_pass st now false htok
    (le_deadline_not_late now st.timestamp hage) hrep
  refine ⟨by rw [hpass]; rfl, by rw [hpass], ?_, ?_⟩
  · intro now2 up2 hage2
    rw [hpass]
    exact replyCall_already _ now2 up2 htok
      (le_deadline_not_late now2 st.timestamp hage2) rfl
  · intro now2 up2 hage2
    rw [hpass]
    exact replyCall_tooLate _ now2 up2 htok
      (past_deadline_late now2 st.timestamp hage2)

/-- Claim C10, witness: the amended theorem applied to a fresh state whose
first attempt at time 0 fails upstream; a retry at time 5 raises
already-replied. -/
theorem reply_consumed_witness :
    (replyCall freshState 0 false).1 = .error .upstreamRequestFailed
    ∧ ((replyCall freshState 0 false).2).replied = true
    ∧ (replyCall (replyCall freshState 0 false).2 5 true).1 =
        .error .cannotReplyAlreadyReplied :=
  ⟨(reply_consumed_even_on_upstream_failure freshState 0 rfl
      (by norm_num [freshState]) rfl).1,
   (reply_consumed_even_on_upstream_failure freshState 0 rfl
      (by norm_num [freshState]) rfl).2.1,
   (reply_consumed_even_on_upstream_failure freshState 0 rfl
      (by norm_num [freshState]) rfl).2.2.1 5 true
      (by norm_num [freshState])⟩

/-! ## Outbound gateway (src/linex/http.py)

Each gateway function is modelled by the ordered list of externally visible
awaited effects it performs on its success path: rate-limiter acquisitions
(await rr_x.call(), tagged with the module-level limiter instance it goes
through) and the HTTP request it issues.  The limiter instances are created
per endpoint class (RateLimit.other(), RateLimit.webhook_endpoint(),
RateLimit.stats_and_broadcast()); their internals live outside src and are
not needed here, only whether an acquisition precedes the request. -/

/-- Externally visible effect of a gateway operation. -/
inductive GatewayAction
  | acquire (limiter : String)
  | httpRequest (method : String) (url : String)
  deriving DecidableEq, Repr

/-- Effects of get_bot_info. -/
def get_bot_info_actions : List GatewayAction :=
  [.acquire "rr_botInfo", .httpRequest "GET" "https://api.line.me/v2/bot/info"]

/-- Effects of fetch_group_member_count. -/
def fetch_group_member_count_actions (group_id : String) : List GatewayAction :=
  [.acquire "rr_getMemberCount",
   .httpRequest "GET"
     ("https://api.line.me/v2/bot/group/" ++ group_id ++ "/members/count")]

/-- Effects of fetch_group_chat_summary. -/
def fetch_group_chat_summary_actions (group_id : String) : List GatewayAction :=
  [.acquire "rr_getGroupChat",
   .httpRequest "GET"
     ("https://api.line.me/v2/bot/group/" ++ group_id ++ "/summary")]

/-- Effects of reply: the POST is issued with no limiter acquisition. -/
def reply_actions : List GatewayAction :=
  [.httpRequest "POST" "https://api.line.me/v2/bot/message/reply"]

/-- Effects of mark_as_read: no limiter acquisition. -/
def mark_as_read_actions : List GatewayAction :=
  [.httpRequest "POST" "https://api.line.me/v2/bot/chat/markAsRead"]

/-- Effects of display_loading: no limiter acquisition. -/
def display_loading_actions : List GatewayAction :=
  [.httpRequest "POST" "https://api.line.me/v2/chat/loading/start"]

/-- Effects of push: no limiter acquisition. -/
def push_actions : List GatewayAction :=
  [.httpRequest "POST" "https://api.line.me/v2/bot/message/push"]

/-- Effects of fetch_user. -/
def fetch_user_actions (user_id : String) : List GatewayAction :=
  [.acquire "rr_getUser",
   .httpRequest "GET" ("https://api.line.me/v2/bot/profile/" ++ user_id)]

/-- Effects of fetch_location (nominatim search, own client, no
limiter). -/
def fetch_location_actions : List GatewayAction :=
  [.httpRequest "GET" "https://nominatim.openstreetmap.org/search"]

/-- Effects of set_webhook_endpoint. -/
def set_webhook_endpoint_actions : List GatewayAction :=
  [.acquire "rr_setWebhookEndpoint",
   .httpRequest "PUT" "https://api.line.me/v2/bot/channel/webhook/endpoint"]

/-- Effects of fetch_webhook. -/
def fetch_webhook_actions : List GatewayAction :=
  [.acquire "rr_getWebhook",
   .httpRequest "GET" "https://api.line.me/v2/bot/channel/webhook/endpoint"]

/-- Effects of test_webhook. -/
def test_webhook_actions : List GatewayAction :=
  [.acquire "rr_testWebhook",
   .httpRequest "POST" "https://api.line.me/v2/bot/channel/webhook/test"]

/-- Effects of fetch_file (media content download): no limiter
acquisition. -/
def fetch_file_actions (message_id : String) : List GatewayAction :=
  [.httpRequest "GET"
    ("https://api-data.line.me/v2/bot/message/" ++ message_id ++ "/content")]

/-- Every HTTP request in the trace is preceded by at least one limiter
acquisition; the flag records whether an acquisition has been seen. -/
def acquiredBeforeEachHttp : Bool → List GatewayAction → Bool
  | _, [] => true
  | _, .acquire _ :: r => acquiredBeforeEachHttp true r
  | seen, .httpRequest _ _ :: r => seen && acquiredBeforeEachHttp seen r

/-- Claim C3, counterexample: the reply operation issues its HTTP POST
with no preceding rate-limiter acquisition at all. -/
theorem reply_unguarded_counterexample :
    reply_actions =
      [.httpRequest "POST" "https://api.line.me/v2/bot/message/reply"]
    ∧ acquiredBeforeEachHttp false reply_actions = false := by
  exact ⟨rfl, rfl⟩

/-- Claim C3 (amended): the fetch and webhook-configuration operations
(get_bot_info, fetch_group_member_count, fetch_group_chat_summary,
fetch_user, set_webhook_endpoint, fetch_webhook, test_webhook) acquire
their matching rate limiter before issuing the HTTP call, but reply, push,
mark_as_read, display_loading, fetch_location and fetch_file issue their
HTTP call with no rate-limiter acquisition. -/
theorem gateway_rate_limiter_coverage :
    ∀ (group_id user_id message_id : String),
      acquiredBeforeEachHttp false get_bot_info_actions = true
      ∧ acquiredBeforeEachHttp false
          (fetch_group_member_count_actions group_id) = true
      ∧ acquiredBeforeEachHttp false
          (fetch_group_chat_summary_actions group_id) = true
      ∧ acquiredBeforeEachHttp false (fetch_user_actions user_id) = true
      ∧ acquiredBeforeEachHttp false set_webhook_endpoint_actions = true
      ∧ acquiredBeforeEachHttp false fetch_webhook_actions = true
      ∧ acquiredBeforeEachHttp false test_webhook_actions = true
      ∧ acquiredBeforeEachHttp false reply_actions = false
      ∧ acquiredBeforeEachHttp false push_actions = false
      ∧ acquiredBeforeEachHttp false mark_as_read_actions = false
      ∧ acquiredBeforeEachHttp false display_loading_actions = false
      ∧ acquiredBeforeEachHttp false fetch_location_actions = false
      ∧ acquiredBeforeEachHttp false (fetch_file_actions message_id) = false := by
  intro group_id user_id message_id
  refine ⟨rfl, rfl, rfl, rfl, rfl, rfl, rfl, rfl, rfl, rfl, rfl, rfl, rfl⟩

/-! ## Message cache (src/linex/cache.py and
src/linex/processing.py, add_to_message_cache)

The module-level MESSAGES dict is keyed by message id and holds the
decoded context; a Python dict is insertion-ordered, and assigning to an
existing key updates the value in place while a new key appends.
add_to_message_cache inserts and then, if the size exceeds 1000, pops
next(iter(MESSAGES)) — the oldest inserted key. -/

/-- Decoded context data the dispatcher and caches consult: the dispatch
kind (the message type for message events, the event type otherwise), the
message id (empty for non-message contexts, which are never cached), and
the text content for text messages. -/
structure DCtx where
  kind : String
  id : String
  text : Str
  deriving DecidableEq, Repr

/-- Models assignment d[k] = v on an insertion-ordered Python dict: an
existing key keeps its position and gets the new value; a new key is
appended. -/
def pyDictSet (k : String) (v : α) : List (String × α) → List (String × α)
  | [] => [(k, v)]
  | (k0, v0) :: rest =>
    if k0 = k then (k0, v) :: rest else (k0, v0) :: pyDictSet k v rest

/-- The MESSAGES cache: message id to decoded context, in insertion
order. -/
abbrev MsgCache := List (String × DCtx)

/-- Models add_to_message_cache: insert the context under its message id,
then pop the oldest entry if the size exceeds 1000. -/
def add_to_message_cache (context : DCtx) (m : MsgCache) : MsgCache :=
  let m1 := pyDictSet context.id context m
  if 1000 < m1.length then m1.tail else m1

lemma pyDictSet_length_mem (k : String) (v : α) :
    ∀ (m : List (String × α)), (m.map Prod.fst).contains k = true →
      (pyDictSet k v m).length = m.length := by
  intro m
  induction m with
  | nil => intro h; simp at h
  | cons hd tl ih =>
    intro h
    obtain ⟨k0, v0⟩ := hd
    by_cases hk : k0 = k
    · simp [pyDictSet, hk]
    · have htl : (tl.map Prod.fst).contains k = true := by
        simp only [List.map_cons, List.contains_cons] at h
        rcases Bool.or_eq_true_iff.mp h with h1 | h1
        · have hkk : k = k0 := by simpa using h1
          exact absurd hkk.symm hk
        · exact h1
      simp [pyDictSet, hk, ih htl]

lemma pyDictSet_not_mem (k : String) (v : α) :
    ∀ (m : List (String × α)), (m.map Prod.fst).contains k = false →
      pyDictSet k v m = m ++ [(k, v)] := by
  intro m
  induction m with
  | nil => intro _; rfl
  | cons hd tl ih =>
    intro h
    obtain ⟨k0, v0⟩ := hd
    simp only [List.map_cons, List.contains_cons, Bool.or_eq_false_iff] at h
    have hk : ¬ (k0 = k) := by
      intro hc; rw [hc] at h; simp at h
    simp [pyDictSet, hk, ih h.2]

/-- Claim C5: after an insertion into a cache holding at most 1000
entries, the cache again holds at most 1000 entries; and inserting a fresh
message id into a full cache of 1000 entries evicts exactly the
oldest-inserted entry, appending the new entry after the surviving 1000
most recently inserted ones (FIFO by insertion order). -/
theorem message_cache_fifo_bound :
    ∀ (context : DCtx) (m : MsgCache),
      (m.length ≤ 1000 → (add_to_message_cache context m).length ≤ 1000)
      ∧ (m.length = 1000 →
          (m.map Prod.fst).contains context.id = false →
          add_to_message_cache context m = m.tail ++ [(context.id, context)]
          ∧ (add_to_message_cache context m).length = 1000) := by
  intro context m
  constructor
  · intro hle
    simp only [add_to_message_cache]
    cases hmem : (m.map Prod.fst).contains context.id with
    | true =>
      rw [pyDictSet_length_mem context.id context m hmem]
      have hngt : ¬ (1000 < m.length) := by omega
      rw [if_neg hngt]
      rw [pyDictSet_length_mem context.id context m hmem]
      exact hle
    | false =>
      rw [pyDictSet_not_mem context.id context m hmem]
      by_cases hlt : 1000 < (m ++ [(context.id, context)]).length
      · simp only [hlt, if_pos]
        have := List.length_tail (m ++ [(context.id, context)])
        simp at this ⊢
        omega
      · simp only [hlt, if_neg, not_false_iff]
        simp at hlt ⊢
        omega
  · intro hlen hmem
    have hset := pyDictSet_not_mem context.id context m hmem
    have hne : m ≠ [] := by
      intro hc; rw [hc] at hlen; simp at hlen
    constructor
    · simp only [add_to_message_cache]
      rw [hset]
      have hcond : 1000 < (m ++ [(context.id, context)]).length := by
        simp [hlen]
      simp only [hcond, if_pos]
      cases m with
      | nil => exact absurd rfl hne
      | cons hd tl => simp
    · simp only [add_to_message_cache]
      rw [hset]
      have hcond : 1000 < (m ++ [(context.id, context)]).length := by
        simp [hlen]
      simp only [hcond, if_pos]
      rw [List.length_tail]
      simp [hlen]

/-- Concrete full cache of 1000 distinct numeric message ids, oldest
first. -/
def bigCache : MsgCache :=
  (List.range 1000).map (fun i => (Nat.repr i, ⟨"text", Nat.repr i, []⟩))

/-- Concrete fresh text-message context with a new id. -/
def freshMsg : DCtx := ⟨"text", "x", []⟩

set_option maxRecDepth 100000 in
/-- Claim C5, witness: inserting the 1001st distinct id into the concrete
full cache evicts exactly the oldest entry and stays at 1000 entries. -/
theorem message_cache_fifo_witness :
    bigCache.length = 1000
    ∧ (bigCache.map Prod.fst).contains freshMsg.id = false
    ∧ add_to_message_cache freshMsg bigCache =
        bigCache.tail ++ [(freshMsg.id, freshMsg)]
    ∧ (add_to_message_cache freshMsg bigCache).length = 1000 :=
  ⟨by simp [bigCache], by decide,
   ((message_cache_fifo_bound freshMsg bigCache).2 (by simp [bigCache])
      (by decide)).1,
   ((message_cache_fifo_bound freshMsg bigCache).2 (by simp [bigCache])
      (by decide)).2⟩

/-! ## wait_for (src/linex/application.py, Client.wait_for)

The waiter registers a pending slot, then loops: it reads the slot; if the
slot is filled but the check rejects the context it executes continue,
jumping straight back to the read with no await in between — under the
single-threaded asyncio event loop no other task can run, so the slot
cannot change; otherwise (slot empty, or filled and accepted) it awaits
asyncio.sleep(0.01), adds 0.01 to elapsed, and raises TimeoutError when a
truthy timeout is configured and elapsed has reached it.  The del of the
pending entry sits after the loop, so it runs only on the success path.

Time is modelled in ticks of one completed sleep, 0.01 s each; the slot
contents as read after n sleeps are an environment function of n; elapsed
has reached a timeout of t seconds once 100 * t ticks have completed; and
the loop gets explicit fuel, one unit per iteration, so divergence shows
up as stillLooping for every fuel. -/

/-- Result of running the wait_for loop: a returned context or a raised
TimeoutError, each recording whether the pending entry was removed from
the table, or the loop still running when the fuel ran out. -/
inductive WaitOutcome
  | success (c : DCtx) (entryRemoved : Bool)
  | timedOut (entryRemoved : Bool)
  | stillLooping
  deriving DecidableEq, Repr

/-- Models the source's test: timeout is truthy (not None and nonzero) and
elapsed, accumulated in 0.01 s steps, has reached it. -/
def timeoutHit (timeout : Option Nat) (ticks : Nat) : Bool :=
  match timeout with
  | none => false
  | some t => decide (0 < t) && decide (t * 100 ≤ ticks)

/-- Models the wait_for polling loop.  The continue branch on a rejected
filled slot re-reads at the same tick — no suspension separates the read
from the jump, so the slot value is necessarily unchanged; the other
branches complete one sleep and then apply the timeout test, which on the
found-result path can still raise before the loop exits. -/
def waitForRun (slotAt : Nat → Option DCtx) (check : DCtx → Bool)
    (timeout : Option Nat) : Nat → Nat → WaitOutcome
  | 0, _ => .stillLooping
  | fuel + 1, ticks =>
    match slotAt ticks with
    | some c =>
      if check c then
        if timeoutHit timeout (ticks + 1) then .timedOut false
        else .success c true
      else waitForRun slotAt check timeout fuel ticks
    | none =>
      if timeoutHit timeout (ticks + 1) then .timedOut false
      else waitForRun slotAt check timeout fuel (ticks + 1)

/-- The text context the pending slot is filled with in the spec's
scenario. -/
def pongCtx : DCtx := ⟨"text", "mid-pong", strOf "pong"⟩

/-- The check used in the spec's scenario: accept only the text ping. -/
def pingCheck (c : DCtx) : Bool := c.text == strOf "ping"

/-- Claim C2: with the pending slot filled by a context the check rejects
and a timeout of 1 second configured, the wait_for loop never terminates —
the continue path skips the sleep and the timeout test, so for every
amount of fuel it is still looping and TimeoutError is never raised; and
on the plain timeout path (slot never filled) the loop raises after 100
ticks without removing the pending entry, the del being unreachable past
the raise. -/
theorem wait_for_rejected_slot_spins_and_timeout_leaks_entry :
    (∀ (fuel : Nat),
      waitForRun (fun _ => some pongCtx) pingCheck (some 1) fuel 0 =
        .stillLooping)
    ∧ waitForRun (fun _ => none) (fun _ => true) (some 1) 200 0 =
        .timedOut false := by
  constructor
  · intro fuel
    induction fuel with
    | zero => rfl
    | succ n ih =>
      have hrej : pingCheck pongCtx = false := by decide
      simp only [waitForRun, hrej]
      exact ih
  · decide

/-! ## Dispatcher (src/linex/processing.py, process) and handler fan-out
(src/linex/application.py, Client.emit)

Event payloads carry a channel mode, a type discriminator, and for message
events a nested message object with its own type, id and text.  Decoding
picks the context class from MESSAGE_CONTEXTS or OTHER_CONTEXTS; a message
event with an unrecognized nested type is skipped with a logged warning,
an unrecognized top-level type raises NameError.  After decoding, the
dispatcher inserts message contexts into the cache, fills every pending
slot registered under the dispatch name, and emits to the handlers
registered under that name; emit wraps each handler in do_event_safe,
which catches any exception and logs it with the handler's name, and falls
back to command processing for a text event with no registered text
handler.  Handlers are modelled by their name plus a result function;
their bodies are integrator code outside the core. -/

/-- Nested message object of a message event: its type discriminator, id,
and text content (empty for non-text messages). -/
structure MsgPayload where
  mtype : String
  id : String
  text : Str
  deriving DecidableEq, Repr

/-- One webhook event: channel mode, top-level type, and the nested
message object when present. -/
structure InEvent where
  mode : String
  etype : String
  msg : Option MsgPayload
  deriving DecidableEq, Repr

/-- Keys of MESSAGE_CONTEXTS. -/
def MESSAGE_CONTEXT_KINDS : List String :=
  ["text", "image", "video", "audio", "file", "location", "sticker"]

/-- Keys of OTHER_CONTEXTS. -/
def OTHER_CONTEXT_KINDS : List String :=
  ["unsend", "follow", "unfollow", "join", "leave", "memberJoined",
   "memberLeft", "postback", "videoPlayComplete", "beacon", "accountLink"]

/-- Keys of the class-level handlers dict, from which the pending table is
built at class creation. -/
def PRESET_EVENT_NAMES : List String :=
  ["ready", "text", "image", "audio", "file", "location", "sticker",
   "video", "unsend", "follow", "unfollow", "join", "leave", "member_join",
   "member_leave", "postback", "video_complete", "beacon", "account_link",
   "device_link", "device_unlink", "scenario_result"]

/-- A registered event handler: its function name (used by the logger on
failure) and its outcome on a context — ok, or a raised exception carrying
a message. -/
structure Handler where
  hname : String
  run : DCtx → Except String Unit

/-- Python dict lookup d[k] as an option (none models KeyError). -/
def lookupAssoc (l : List (String × α)) (k : String) : Option α :=
  match l with
  | [] => none
  | (k0, v) :: rest => if k0 == k then some v else lookupAssoc rest k

/-- Models Client.process_commands: the comprehension runs every
registered command on the text in order — a raised exception aborts with
that error — then any() of the results. -/
def processCommands : List Command → Str → Except CmdErr Bool
  | [], _ => .ok false
  | cmd :: rest, text =>
    match handleCommand cmd text with
    | .raised e => .error e
    | .noMatch => processCommands rest text
    | .invoked _ _ => (processCommands rest text).map (fun _ => true)

/-- What one emit produced: the identities of the wrapped callables that
ran and the identities whose unhandled error was caught and logged by
do_event_safe. -/
structure EmitResult where
  ran : List String
  failures : List String
  deriving DecidableEq, Repr

/-- Identity of a handler whose run raised, as logged by do_event_safe. -/
def runSafe (h : Handler) (c : DCtx) : Option String :=
  match h.run c with
  | .ok _ => none
  | .error _ => some h.hname

/-- Models Client.emit: the handlers registered under the name (a missing
key raises KeyError), each wrapped in do_event_safe so its error is caught
and logged; a text event with no registered text handler falls back to
process_commands, itself wrapped in do_event_safe. -/
def emitModel (registry : List (String × List Handler)) (cmds : List Command)
    (name : String) (c : DCtx) : Except String EmitResult :=
  match lookupAssoc registry name with
  | none => .error name
  | some hs =>
    if name == "text" && hs.isEmpty then
      match processCommands cmds c.text with
      | .ok _ => .ok ⟨["process_commands"], []⟩
      | .error _ => .ok ⟨["process_commands"], ["process_commands"]⟩
    else
      .ok ⟨hs.map Handler.hname, hs.filterMap (fun h => runSafe h c)⟩

/-- Dispatcher state threaded through one webhook payload: the message
cache, the pending-wait table (event name to slots by correlation id),
the logged warnings, the dispatched (name, context) pairs in order, the
identities that ran, and the logged handler failures. -/
structure ProcState where
  cache : MsgCache
  pending : List (String × List (String × Option DCtx))
  warnings : List String
  dispatched : List (String × DCtx)
  ran : List String
  handlerFailures : List String
  deriving Repr

/-- Exceptions process can raise: NameError on an unknown top-level event
type, KeyError on a dict access with a missing key (the pending table and
handlers dict are keyed by the preset names, which do not include the
camel-case OTHER_CONTEXTS names), and KeyError reading a missing nested
message object. -/
inductive ProcErr
  | nameErrorUnknownEventType (etype : String)
  | keyError (name : String)
  | keyErrorMessagePayload
  deriving DecidableEq, Repr

/-- Models fulfill_pendings: every slot registered under the name is set
to the context. -/
def fulfillPendings (name : String) (c : DCtx)
    (p : List (String × List (String × Option DCtx))) :
    List (String × List (String × Option DCtx)) :=
  p.map (fun e =>
    if e.1 = name then (e.1, e.2.map (fun s => (s.1, some c))) else e)

/-- Shared tail of processing one event: fill the pending slots under the
dispatch name (KeyError when the name is not a pending key) and emit. -/
def dispatchTo (registry : List (String × List Handler))
    (cmds : List Command) (name : String) (c : DCtx) (st : ProcState) :
    Except ProcErr ProcState :=
  match lookupAssoc st.pending name with
  | none => .error (.keyError name)
  | some _ =>
    let p2 := fulfillPendings name c st.pending
    match emitModel registry cmds name c with
    | .error k => .error (.keyError k)
    | .ok er =>
      .ok { st with
        pending := p2
        dispatched := st.dispatched ++ [(name, c)]
        ran := st.ran ++ er.ran
        handlerFailures := st.handlerFailures ++ er.failures }

/-- Models one iteration of the event loop in process: skip standby events
when configured, decode, cache message contexts, then dispatch. -/
def processEvent (registry : List (String × List Handler))
    (cmds : List Command) (ignoreStandby : Bool) (st : ProcState)
    (ev : InEvent) : Except ProcErr ProcState :=
  if ev.mode == "standby" && ignoreStandby then .ok st
  else if ev.etype == "message" then
    match ev.msg with
    | none => .error .keyErrorMessagePayload
    | some m =>
      if MESSAGE_CONTEXT_KINDS.contains m.mtype then
        let c : DCtx := ⟨m.mtype, m.id, m.text⟩
        dispatchTo registry cmds m.mtype c
          { st with cache := add_to_message_cache c st.cache }
      else
        .ok { st with warnings := st.warnings ++
          ["unknown message type: " ++ m.mtype ++ " - skipping event"] }
  else
    if OTHER_CONTEXT_KINDS.contains ev.etype then
      dispatchTo registry cmds ev.etype ⟨ev.etype, "", []⟩ st
    else .error (.nameErrorUnknownEventType ev.etype)

/-- Models the event loop of process over the payload's event list, in
array order; the first raised exception aborts the remaining events. -/
def processEvents (registry : List (String × List Handler))
    (cmds : List Command) (ignoreStandby : Bool) :
    List InEvent → ProcState → Except ProcErr ProcState
  | [], st => .ok st
  | ev :: rest, st =>
    match processEvent registry cmds ignoreStandby st ev with
    | .error e => .error e
    | .ok st1 => processEvents registry cmds ignoreStandby rest st1

/-- Models process: an empty event list short-circuits to the one-time
setup notice with no decoding; otherwise the events are processed in
order. -/
def processPayload (registry : List (String × List Handler))
    (cmds : List Command) (ignoreStandby : Bool) (events : List InEvent)
    (st : ProcState) : Except ProcErr ProcState :=
  if events.isEmpty then .ok st
  else processEvents registry cmds ignoreStandby events st

/-! ## Webhook endpoint (src/linex/application.py, the POST handler)

The handler computes HMAC-SHA256 over the raw body bytes with the channel
secret as key (hmac.new(secret, body, sha256).digest(), a standard-library
primitive modelled here as an explicit digest-function parameter),
base64-encodes the digest, and compares it to the X-Line-Signature header
with hmac.compare_digest — a comparison whose functional content is
equality (its constant-time execution is a timing property outside this
embedding).  On mismatch it logs and returns HTTP 400 with the JSON
message invalid webhook, without touching the request body further; on
match it decodes the JSON payload and runs process, answering 200 with
the JSON message happy birthday when process returns, and letting an
exception from json decoding or process surface as a server error. -/

/-- Bytes are naturals below 256. -/
abbrev Bytes := List Nat

/-- The base64 alphabet (RFC 4648). -/
def b64Alphabet : List Char :=
  (strOf "ABCDEFGHIJKLMNOPQRSTUVWXYZabcdefghijklmnopqrstuvwxyz0123456789+/")

/-- Character for a 6-bit group. -/
def b64Char (n : Nat) : Char := b64Alphabet.getD n '?'

/-- Models base64.b64encode on a byte list, with padding. -/
def base64encode : Bytes → Str
  | [] => []
  | [a] => [b64Char (a / 4), b64Char (a % 4 * 16), '=', '=']
  | [a, b] => [b64Char (a / 4), b64Char (a % 4 * 16 + b / 16),
               b64Char (b % 16 * 4), '=']
  | a :: b :: c :: rest =>
    b64Char (a / 4) :: b64Char (a % 4 * 16 + b / 16) ::
      b64Char (b % 16 * 4 + c / 64) :: b64Char (c % 64) :: base64encode rest

/-- Response of the webhook POST handler: the 400 invalid-webhook reply on
a signature mismatch (the dispatcher state untouched), a server error when
json decoding or process raises, or the 200 acknowledgement with the
state after dispatch. -/
inductive WebResponse
  | badSignature (st : ProcState)
  | serverError
  | ok (st : ProcState)

/-- HTTP status of a webhook response. -/
def WebResponse.status : WebResponse → Nat
  | .badSignature _ => 400
  | .serverError => 500
  | .ok _ => 200

/-- JSON message of a webhook response, when the handler itself builds
one. -/
def WebResponse.message : WebResponse → Option String
  | .badSignature _ => some "invalid webhook"
  | .serverError => none
  | .ok _ => some "happy birthday"

/-- Models the POST handler: digest the raw body with the channel secret,
base64-encode, compare with the header, and only on a match decode the
payload and dispatch it. -/
def webhookPost (hmacSha256 : Bytes → Bytes → Bytes)
    (channelSecret body : Bytes) (headerSig : Str)
    (parseJson : Bytes → Option (List InEvent))
    (registry : List (String × List Handler)) (cmds : List Command)
    (ignoreStandby : Bool) (st : ProcState) : WebResponse :=
  let validSignature := base64encode (hmacSha256 channelSecret body)
  if headerSig == validSignature then
    match parseJson body with
    | none => .serverError
    | some events =>
      match processPayload registry cmds ignoreStandby events st with
      | .error _ => .serverError
      | .ok st2 => .ok st2
  else .badSignature st

/-- Empty dispatcher state. -/
def emptyState : ProcState := ⟨[], [], [], [], [], []⟩

/-- Claim C7: the webhook handler compares the header signature with the
base64 of the digest of the raw body under the channel secret; on
mismatch it answers 400 with the message invalid webhook, leaves the
dispatcher state untouched, and its response does not depend on the JSON
decoder at all — the payload is neither decoded nor dispatched.  The
digest function is universally quantified, standing for the
standard-library HMAC-SHA256, and the constant-time hmac.compare_digest
is modelled by its functional content, equality. -/
theorem webhook_rejects_bad_signature :
    ∀ (hmacSha256 : Bytes → Bytes → Bytes) (channelSecret body : Bytes)
      (headerSig : Str) (parseJson : Bytes → Option (List InEvent))
      (registry : List (String × List Handler)) (cmds : List Command)
      (ig : Bool) (st : ProcState),
      headerSig ≠ base64encode (hmacSha256 channelSecret body) →
      webhookPost hmacSha256 channelSecret body headerSig parseJson
          registry cmds ig st = .badSignature st
      ∧ (webhookPost hmacSha256 channelSecret body headerSig parseJson
          registry cmds ig st).status = 400
      ∧ (webhookPost hmacSha256 channelSecret body headerSig parseJson
          registry cmds ig st).message = some "invalid webhook"
      ∧ (∀ parseJson2, webhookPost hmacSha256 channelSecret body headerSig
          parseJson2 registry cmds ig st =
            webhookPost hmacSha256 channelSecret body headerSig parseJson
              registry cmds ig st) := by
  intro mac secret body hdr parse registry cmds ig st hne
  have hbeq : (hdr == base64encode (mac secret body)) = false := by
    simpa using hne
  refine ⟨?_, ?_, ?_, ?_⟩ <;>
    simp [webhookPost, hbeq, WebResponse.status, WebResponse.message]

/-- Concrete digest function used by the witness. -/
def constMac : Bytes → Bytes → Bytes := fun _ _ => [0, 1, 2]

/-- Claim C7, witness: the gate theorem applied to a concrete digest
function and a header that differs from the encoded digest. -/
theorem webhook_rejects_bad_signature_witness :
    strOf "wrong" ≠ base64encode (constMac [] [])
    ∧ webhookPost constMac [] [] (strOf "wrong")
        (fun _ => none) [] [] true emptyState = .badSignature emptyState :=
  ⟨by decide,
   (webhook_rejects_bad_signature constMac [] []
      (strOf "wrong") (fun _ => none) [] [] true emptyState (by decide)).1⟩

/-- Claim C6: a message event with an unrecognized nested message type is
skipped — the dispatcher logs a warning and hands the unchanged cache and
tables on to the remaining events — whereas a non-message event with an
unrecognized top-level type raises the fatal NameError, aborting the
payload. -/
theorem unknown_kind_skip_vs_fatal :
    (∀ (registry : List (String × List Handler)) (cmds : List Command)
       (ig : Bool) (st : ProcState) (m : MsgPayload) (rest : List InEvent),
       MESSAGE_CONTEXT_KINDS.contains m.mtype = false →
       processEvents registry cmds ig (⟨"active", "message", some m⟩ :: rest)
           st =
         processEvents registry cmds ig rest
           { st with warnings := st.warnings ++
               ["unknown message type: " ++ m.mtype ++ " - skipping event"] })
    ∧ (∀ (registry : List (String × List Handler)) (cmds : List Command)
        (ig : Bool) (st : ProcState) (ev : InEvent) (rest : List InEvent),
        ev.mode = "active" → ev.etype ≠ "message" →
        OTHER_CONTEXT_KINDS.contains ev.etype = false →
        processEvents registry cmds ig (ev :: rest) st =
          .error (.nameErrorUnknownEventType ev.etype)) := by
  constructor
  · intro registry cmds ig st m rest hm
    simp only [processEvents, processEvent, hm]
    rfl
  · intro registry cmds ig st ev rest hmode hmsg hother
    have hb1 : (ev.mode == "standby") = false := by
      rw [hmode]; rfl
    have hb2 : (ev.etype == "message") = false := by
      simpa using hmsg
    simp only [processEvents, processEvent, hb1, hb2, hother]
    rfl

/-- Claim C6, witness: a message event with nested type poll is skipped
with the warning while the rest of the payload is still processed, and a
top-level type somethingNew raises the NameError. -/
theorem unknown_kind_skip_vs_fatal_witness :
    processEvents [] [] true
        [⟨"active", "message", some ⟨"poll", "id1", []⟩⟩] emptyState =
      processEvents [] [] true []
        { emptyState with warnings :=
            emptyState.warnings ++
              ["unknown message type: " ++ "poll" ++ " - skipping event"] }
    ∧ processEvents [] [] true [⟨"active", "somethingNew", none⟩] emptyState =
        .error (.nameErrorUnknownEventType "somethingNew") :=
  ⟨(unknown_kind_skip_vs_fatal).1 [] [] true emptyState ⟨"poll", "id1", []⟩ []
      (by decide),
   (unknown_kind_skip_vs_fatal).2 [] [] true emptyState
      ⟨"active", "somethingNew", none⟩ [] rfl (by decide) (by decide)⟩

/-- Whether a handler's run raised an unhandled error. -/
def runFailed (h : Handler) (c : DCtx) : Bool :=
  match h.run c with
  | .ok _ => false
  | .error _ => true

/-- Whether an emit completed (handler errors never surface from it). -/
def emitIsOk : Except String EmitResult → Bool
  | .ok _ => true
  | .error _ => false

/-- Identities that ran in an emit. -/
def emitRan : Except String EmitResult → List String
  | .ok er => er.ran
  | .error _ => []

/-- Identities logged as failed in an emit. -/
def emitFailures : Except String EmitResult → List String
  | .ok er => er.failures
  | .error _ => []

/-- Registration shape of a handler registry: its keys with the handler
identities in order, forgetting the handler bodies. -/
def regShape (R : List (String × List Handler)) : List (String × List String) :=
  R.map (fun e => (e.1, e.2.map Handler.hname))

/-- Agreement of dispatcher states in everything except the logged handler
failures. -/
def StAgree (s1 s2 : ProcState) : Prop :=
  s1.cache = s2.cache ∧ s1.pending = s2.pending
  ∧ s1.warnings = s2.warnings ∧ s1.dispatched = s2.dispatched
  ∧ s1.ran = s2.ran

/-- Agreement of process outcomes in everything except the logged handler
failures: both raise the same exception, or both complete with agreeing
states. -/
def ProcAgree : Except ProcErr ProcState → Except ProcErr ProcState → Prop
  | .error e1, .error e2 => e1 = e2
  | .ok s1, .ok s2 => StAgree s1 s2
  | _, _ => False

lemma lookup_shape :
    ∀ (R1 R2 : List (String × List Handler)), regShape R1 = regShape R2 →
      ∀ (name : String),
        (lookupAssoc R1 name = none ∧ lookupAssoc R2 name = none)
        ∨ ∃ hs1 hs2, lookupAssoc R1 name = some hs1
            ∧ lookupAssoc R2 name = some hs2
            ∧ hs1.map Handler.hname = hs2.map Handler.hname := by
  intro R1
  induction R1 with
  | nil =>
    intro R2 h name
    cases R2 with
    | nil => exact Or.inl ⟨rfl, rfl⟩
    | cons b t => simp [regShape] at h
  | cons a t1 ih =>
    intro R2 h name
    cases R2 with
    | nil => simp [regShape] at h
    | cons b t2 =>
      obtain ⟨k1, hs1⟩ := a
      obtain ⟨k2, hs2⟩ := b
      simp only [regShape, List.map_cons, List.cons.injEq, Prod.mk.injEq] at h
      obtain ⟨⟨hk, hmap⟩, htail⟩ := h
      cases hkn : (k1 == name) with
      | true =>
        right
        refine ⟨hs1, hs2, by simp [lookupAssoc, hkn], ?_, hmap⟩
        have h2 : (k2 == name) = true := by rw [← hk]; exact hkn
        simp [lookupAssoc, h2]
      | false =>
        have h2 : (k2 == name) = false := by rw [← hk]; exact hkn
        have hrec := ih t2 (by simpa [regShape] using htail) name
        rcases hrec with ⟨hn1, hn2⟩ | ⟨a1, a2, e1, e2, em⟩
        · exact Or.inl ⟨by simp [lookupAssoc, hkn, hn1],
            by simp [lookupAssoc, h2, hn2]⟩
        · exact Or.inr ⟨a1, a2, by simp [lookupAssoc, hkn, e1],
            by simp [lookupAssoc, h2, e2], em⟩

lemma emit_agree (R1 R2 : List (String × List Handler))
    (h : regShape R1 = regShape R2) (cmds : List Command) (name : String)
    (c : DCtx) :
    (∃ k, emitModel R1 cmds name c = .error k
       ∧ emitModel R2 cmds name c = .error k)
    ∨ (∃ e1 e2, emitModel R1 cmds name c = .ok e1
        ∧ emitModel R2 cmds name c = .ok e2 ∧ e1.ran = e2.ran) := by
  rcases lookup_shape R1 R2 h name with ⟨hn1, hn2⟩ | ⟨hs1, hs2, he1, he2, hmap⟩
  · exact Or.inl ⟨name, by simp [emitModel, hn1], by simp [emitModel, hn2]⟩
  · right
    have hemp : hs1.isEmpty = hs2.isEmpty := by
      cases hs1 <;> cases hs2 <;> simp_all
    simp only [emitModel, he1, he2]
    cases hc : ((name == "text") && hs1.isEmpty) with
    | true =>
      have hc2 : ((name == "text") && hs2.isEmpty) = true := by
        rw [← hemp]; exact hc
      simp only [hc, hc2, if_true]
      cases hpc : processCommands cmds c.text with
      | ok b => exact ⟨_, _, rfl, rfl, rfl⟩
      | error e => exact ⟨_, _, rfl, rfl, rfl⟩
    | false =>
      have hc2 : ((name == "text") && hs2.isEmpty) = false := by
        rw [← hemp]; exact hc
      simp only [hc, hc2, Bool.false_eq_true, if_neg, not_false_iff]
      exact ⟨_, _, rfl, rfl, hmap⟩

lemma dispatch_agree (R1 R2 : List (String × List Handler))
    (h : regShape R1 = regShape R2) (cmds : List Command) (name : String)
    (c : DCtx) (st1 st2 : ProcState) (hst : StAgree st1 st2) :
    ProcAgree (dispatchTo R1 cmds name c st1)
      (dispatchTo R2 cmds name c st2) := by
  obtain ⟨hc, hp, hw, hd, hr⟩ := hst
  simp only [dispatchTo, hp]
  cases hlp : lookupAssoc st2.pending name with
  | none => exact rfl
  | some slots =>
    rcases emit_agree R1 R2 h cmds name c with ⟨k, he1, he2⟩ |
      ⟨e1, e2, he1, he2, hran⟩
    · simp only [he1, he2]; exact rfl
    · simp only [he1, he2]
      refine ⟨?_, ?_, ?_, ?_, ?_⟩ <;> simp [hc, hp, hw, hd, hr, hran]

lemma processEvent_agree (R1 R2 : List (String × List Handler))
    (h : regShape R1 = regShape R2) (cmds : List Command) (ig : Bool)
    (st1 st2 : ProcState) (hst : StAgree st1 st2) (ev : InEvent) :
    ProcAgree (processEvent R1 cmds ig st1 ev)
      (processEvent R2 cmds ig st2 ev) := by
  obtain ⟨hc, hp, hw, hd, hr⟩ := hst
  simp only [processEvent]
  cases h1 : ((ev.mode == "standby") && ig) with
  | true => exact ⟨hc, hp, hw, hd, hr⟩
  | false =>
    simp only [h1, Bool.false_eq_true, if_neg, not_false_iff]
    cases h2 : (ev.etype == "message") with
    | true =>
      simp only [h2, if_true]
      cases ev.msg with
      | none => exact rfl
      | some m =>
        cases h3 : MESSAGE_CONTEXT_KINDS.contains m.mtype with
        | true =>
          simp only [h3, if_true]
          exact dispatch_agree R1 R2 h cmds m.mtype ⟨m.mtype, m.id, m.text⟩
            _ _ ⟨by simp [hc], by simp [hp], by simp [hw], by simp [hd],
                 by simp [hr]⟩
        | false =>
          simp only [h3, Bool.false_eq_true, if_neg, not_false_iff]
          exact ⟨hc, hp, by rw [hw], hd, hr⟩
    | false =>
      simp only [h2, Bool.false_eq_true, if_neg, not_false_iff]
      cases h4 : OTHER_CONTEXT_KINDS.contains ev.etype with
      | true =>
        simp only [h4, if_true]
        exact dispatch_agree R1 R2 h cmds ev.etype ⟨ev.etype, "", []⟩
          st1 st2 ⟨hc, hp, hw, hd, hr⟩
      | false =>
        simp only [h4, Bool.false_eq_true, if_neg, not_false_iff]
        exact rfl

lemma processEvents_agree (R1 R2 : List (String × List Handler))
    (h : regShape R1 = regShape R2) (cmds : List Command) (ig : Bool) :
    ∀ (events : List InEvent) (st1 st2 : ProcState), StAgree st1 st2 →
      ProcAgree (processEvents R1 cmds ig events st1)
        (processEvents R2 cmds ig events st2) := by
  intro events
  induction events with
  | nil => intro st1 st2 hst; exact hst
  | cons ev rest ih =>
    intro st1 st2 hst
    have hev := processEvent_agree R1 R2 h cmds ig st1 st2 hst ev
    simp only [processEvents]
    cases he1 : processEvent R1 cmds ig st1 ev with
    | error e1 =>
      cases he2 : processEvent R2 cmds ig st2 ev with
      | error e2 =>
        rw [he1, he2] at hev
        exact hev
      | ok s2 =>
        rw [he1, he2] at hev
        exact absurd hev (by simp [ProcAgree])
    | ok s1 =>
      cases he2 : processEvent R2 cmds ig st2 ev with
      | error e2 =>
        rw [he1, he2] at hev
        exact absurd hev (by simp [ProcAgree])
      | ok s2 =>
        rw [he1, he2] at hev
        exact ih s1 s2 hev

/-- Claim C9: (1) when the handlers dict has the event name, emit always
completes — every registered handler for the kind appears among the ran
identities, and a handler whose run raised appears among the logged
failures with its identity; (2) dispatch outcomes agree for any two
registries of the same registration shape, whatever the handler bodies do
— raising handlers change neither the exception/success status of
processing, nor the cache, pending table, warnings, dispatched events, or
the list of identities that ran, only the failure log; (3) a correctly
signed request whose payload decodes and dispatches without a protocol
error is acknowledged with 200 and happy birthday, whatever failures the
dispatch logged. -/
theorem handler_error_isolation :
    (∀ (R : List (String × List Handler)) (cmds : List Command)
       (name : String) (c : DCtx) (hs : List Handler),
       lookupAssoc R name = some hs →
       emitIsOk (emitModel R cmds name c) = true
       ∧ (∀ h ∈ hs, h.hname ∈ emitRan (emitModel R cmds name c))
       ∧ (∀ h ∈ hs, runFailed h c = true →
            h.hname ∈ emitFailures (emitModel R cmds name c)))
    ∧ (∀ (R1 R2 : List (String × List Handler)) (cmds : List Command)
        (ig : Bool) (events : List InEvent) (st : ProcState),
        regShape R1 = regShape R2 →
        ProcAgree (processEvents R1 cmds ig events st)
          (processEvents R2 cmds ig events st))
    ∧ (∀ (hmacSha256 : Bytes → Bytes → Bytes) (secret body : Bytes)
        (parseJson : Bytes → Option (List InEvent))
        (R : List (String × List Handler)) (cmds : List Command) (ig : Bool)
        (st st2 : ProcState) (events : List InEvent),
        parseJson body = some events →
        processPayload R cmds ig events st = .ok st2 →
        webhookPost hmacSha256 secret body
            (base64encode (hmacSha256 secret body)) parseJson R cmds ig st =
          .ok st2
        ∧ (webhookPost hmacSha256 secret body
            (base64encode (hmacSha256 secret body)) parseJson R cmds ig
            st).status = 200) := by
  refine ⟨?_, ?_, ?_⟩
  · intro R cmds name c hs hlk
    cases hs with
    | nil =>
      cases ht : (name == "text") with
      | true =>
        simp only [emitModel, hlk, ht, List.isEmpty_nil, Bool.and_true,
          if_true]
        cases hpc : processCommands cmds c.text <;>
          simp [emitIsOk, emitRan, emitFailures]
      | false =>
        simp [emitModel, hlk, ht, emitIsOk, emitRan, emitFailures]
    | cons h0 t =>
      have hcond : ((name == "text") && (h0 :: t).isEmpty) = false := by simp
      simp only [emitModel, hlk, hcond, Bool.false_eq_true, if_neg,
        not_false_iff]
      refine ⟨rfl, ?_, ?_⟩
      · intro h hm
        exact List.mem_map_of_mem Handler.hname hm
      · intro h hm hf
        apply List.mem_filterMap.mpr
        refine ⟨h, hm, ?_⟩
        unfold runFailed at hf
        unfold runSafe
        cases hrc : h.run c with
        | ok u => rw [hrc] at hf; simp at hf
        | error e => rfl
  · intro R1 R2 cmds ig events st h
    exact processEvents_agree R1 R2 h cmds ig events st st
      ⟨rfl, rfl, rfl, rfl, rfl⟩
  · intro mac secret body parse R cmds ig st st2 events hparse hproc
    constructor
    · simp [webhookPost, hparse, hproc]
    · simp [webhookPost, hparse, hproc, WebResponse.status]

/-- Handler named h_fail whose body raises. -/
def hFail : Handler := ⟨"h_fail", fun _ => .error "boom"⟩

/-- Handler named h_fail whose body succeeds, same identity as hFail. -/
def hFailNamedOk : Handler := ⟨"h_fail", fun _ => .ok ()⟩

/-- Handler named h_ok whose body succeeds. -/
def hOk : Handler := ⟨"h_ok", fun _ => .ok ()⟩

/-- Registry with a raising follow handler followed by a succeeding
sibling. -/
def regFail : List (String × List Handler) := [("follow", [hFail, hOk])]

/-- Registry of the same shape whose handlers all succeed. -/
def regOk : List (String × List Handler) := [("follow", [hFailNamedOk, hOk])]

/-- A decoded follow context. -/
def followCtx : DCtx := ⟨"follow", "", []⟩

/-- A follow event in active mode. -/
def followEvent : InEvent := ⟨"active", "follow", none⟩

/-- Initial state with one pending slot registered under follow. -/
def stPending : ProcState :=
  ⟨[], [("follow", [("w1", none)])], [], [], [], []⟩

/-- State after dispatching the follow event through regFail: the pending
slot is filled, the event dispatched, both handlers ran, and the raising
handler is logged. -/
def stAfter : ProcState :=
  ⟨[], [("follow", [("w1", some followCtx)])], [],
   [("follow", followCtx)], ["h_fail", "h_ok"], ["h_fail"]⟩

/-- Claim C9, witness: on the concrete registry the raising handler is
logged with its identity, its sibling still ran, dispatch through the
raising registry agrees with dispatch through the all-succeeding one, and
the correctly signed request is acknowledged with 200 despite the handler
failure. -/
theorem handler_error_isolation_witness :
    "h_fail" ∈ emitFailures (emitModel regFail [] "follow" followCtx)
    ∧ "h_ok" ∈ emitRan (emitModel regFail [] "follow" followCtx)
    ∧ ProcAgree (processEvents regFail [] true [followEvent] stPending)
        (processEvents regOk [] true [followEvent] stPending)
    ∧ webhookPost constMac [] [] (base64encode (constMac [] []))
        (fun _ => some [followEvent]) regFail [] true stPending =
      .ok stAfter :=
  ⟨(handler_error_isolation.1 regFail [] "follow" followCtx [hFail, hOk]
      rfl).2.2 hFail (List.mem_cons_self hFail [hOk]) rfl,
   (handler_error_isolation.1 regFail [] "follow" followCtx [hFail, hOk]
      rfl).2.1 hOk (List.mem_cons_of_mem hFail (List.mem_cons_self hOk [])),
   handler_error_isolation.2.1 regFail regOk [] true [followEvent] stPending
     rfl,
   (handler_error_isolation.2.2 constMac [] [] (fun _ => some [followEvent])
      regFail [] true stPending stAfter [followEvent] rfl rfl).1⟩

end Linex
